import Mathlib

/-!
Verification of the pure helper logic of the `openai-agents-fistasolutions`
example scripts.  Python strings are modelled as `List Char` (or Lean
`String` where convenient), Python `None` as `Option`, and module-level
failure (`raise ValueError`) as `Except`.
-/

set_option maxRecDepth 100000

namespace Spec2Proof

/-! ### Generic lemmas about list prefixes, suffixes and infixes -/

theorem prefix_append_cases {α : Type} {q l₁ l₂ : List α} (h : q <+: l₁ ++ l₂) :
    q <+: l₁ ∨ ∃ q₂, q = l₁ ++ q₂ ∧ q₂ <+: l₂ := by
  induction l₁ generalizing q with
  | nil => exact Or.inr ⟨q, rfl, h⟩
  | cons a l ih =>
    cases q with
    | nil => exact Or.inl (List.nil_prefix)
    | cons x q' =>
      rw [List.cons_append, List.cons_prefix_cons] at h
      obtain ⟨rfl, h'⟩ := h
      rcases ih h' with h1 | ⟨q₂, rfl, h2⟩
      · exact Or.inl (List.cons_prefix_cons.mpr ⟨rfl, h1⟩)
      · exact Or.inr ⟨q₂, by simp, h2⟩

theorem infix_append_cases {α : Type} {q l₁ l₂ : List α} (h : q <:+: l₁ ++ l₂) :
    q <:+: l₁ ∨ q <:+: l₂ ∨
      ∃ q₁ q₂, q = q₁ ++ q₂ ∧ q₁ ≠ [] ∧ q₂ ≠ [] ∧ q₁ <:+ l₁ ∧ q₂ <+: l₂ := by
  induction l₁ generalizing q with
  | nil => exact Or.inr (Or.inl h)
  | cons a l ih =>
    rw [List.cons_append, List.infix_cons_iff] at h
    rcases h with h | h
    · cases q with
      | nil => exact Or.inl List.nil_infix
      | cons x q' =>
        rw [List.cons_prefix_cons] at h
        obtain ⟨rfl, h'⟩ := h
        rcases prefix_append_cases h' with h1 | ⟨q₂, rfl, h2⟩
        · exact Or.inl (List.cons_prefix_cons.mpr ⟨rfl, h1⟩).isInfix
        · by_cases hq2 : q₂ = []
          · subst hq2
            exact Or.inl (by simp)
          · exact Or.inr (Or.inr ⟨x :: l, q₂, by simp, by simp, hq2,
              List.suffix_refl _, h2⟩)
    · rcases ih h with h1 | h1 | ⟨q₁, q₂, rfl, hne1, hne2, hs, hpre⟩
      · exact Or.inl (List.infix_cons h1)
      · exact Or.inr (Or.inl h1)
      · exact Or.inr (Or.inr ⟨q₁, q₂, rfl, hne1, hne2,
          hs.trans (List.suffix_cons a l), hpre⟩)

theorem infix_append_right_of_getLast {q r t : List Char} {b : Char}
    (hlast : r.getLast? = some b) (hq : b ∉ q) (hr : ¬ q <:+: r)
    (h : q <:+: r ++ t) : q <:+: t := by
  rcases infix_append_cases h with h1 | h1 | ⟨q₁, q₂, rfl, hne1, _, hs, _⟩
  · exact absurd h1 hr
  · exact h1
  · exfalso
    obtain ⟨u, hu⟩ := hs
    subst hu
    rw [List.getLast?_append_of_ne_nil _ hne1] at hlast
    have h1 : q₁.getLast? = some (q₁.getLast hne1) := List.getLast?_eq_getLast q₁ hne1
    rw [h1, Option.some_inj] at hlast
    exact hq (List.mem_append.mpr (Or.inl (hlast ▸ List.getLast_mem hne1)))

/-! ### Embedding of Python `str.replace`

`str.replace(pat, rep)` replaces every non-overlapping occurrence of `pat`,
scanning left to right.  `replaceAllF` is a fuel-indexed structural version;
`replaceAll` instantiates the fuel with the length of the string, which is
always enough. -/

def replaceAllF (p r : List Char) : Nat → List Char → List Char
  | _, [] => []
  | 0, c :: rest => c :: rest
  | fuel + 1, c :: rest =>
    if p <+: c :: rest then r ++ replaceAllF p r fuel (rest.drop (p.length - 1))
    else c :: replaceAllF p r fuel rest

def replaceAll (p r s : List Char) : List Char :=
  replaceAllF p r s.length s

/-- If every replacement block starts with a character `b` that does not occur
in `u`, then a prefix of the output that avoids `b` is a prefix of the input. -/
theorem prefix_of_replaceAllF {p r : List Char} {b : Char} (hb : r.head? = some b) :
    ∀ fuel s u, b ∉ u → u <+: replaceAllF p r fuel s → u <+: s := by
  intro fuel
  induction fuel with
  | zero =>
    intro s u hu h
    cases s with
    | nil => simpa [replaceAllF] using h
    | cons c rest => simpa [replaceAllF] using h
  | succ n ih =>
    intro s u hu h
    cases s with
    | nil => simpa [replaceAllF] using h
    | cons c rest =>
      simp only [replaceAllF] at h
      by_cases hpre : p <+: c :: rest
      · rw [if_pos hpre] at h
        cases u with
        | nil => exact List.nil_prefix
        | cons x u' =>
          exfalso
          cases r with
          | nil => simp at hb
          | cons b0 r' =>
            obtain rfl : b0 = b := by simpa using hb
            rw [List.cons_append, List.cons_prefix_cons] at h
            obtain ⟨rfl, -⟩ := h
            exact hu (List.mem_cons_self x u')
      · rw [if_neg hpre] at h
        cases u with
        | nil => exact List.nil_prefix
        | cons x u' =>
          rw [List.cons_prefix_cons] at h
          obtain ⟨rfl, h'⟩ := h
          have h2 : u' <+: rest :=
            ih rest u' (fun hm => hu (List.mem_cons_of_mem _ hm)) h'
          exact List.cons_prefix_cons.mpr ⟨rfl, h2⟩

/-- The pattern does not occur in the output of `replaceAllF`, provided the
replacement text is bracketed by characters the pattern avoids and does not
itself contain the pattern. -/
theorem not_infix_replaceAllF {p r : List Char} {bl br : Char}
    (hp : p ≠ []) (hhead : r.head? = some bl) (hlast : r.getLast? = some br)
    (hblp : bl ∉ p) (hbrp : br ∉ p) (hpr : ¬ p <:+: r) :
    ∀ fuel s, s.length ≤ fuel → ¬ p <:+: replaceAllF p r fuel s := by
  intro fuel
  induction fuel with
  | zero =>
    intro s hs
    have h0 : s = [] := List.eq_nil_of_length_eq_zero (Nat.le_zero.mp hs)
    subst h0
    simp only [replaceAllF, List.infix_nil]
    exact hp
  | succ n ih =>
    intro s hs
    cases s with
    | nil =>
      simp only [replaceAllF, List.infix_nil]
      exact hp
    | cons c rest =>
      have hs' : rest.length ≤ n := by simpa using hs
      simp only [replaceAllF]
      by_cases hpre : p <+: c :: rest
      · rw [if_pos hpre]
        intro h
        have h2 := infix_append_right_of_getLast hlast hbrp hpr h
        have hlen : (rest.drop (p.length - 1)).length ≤ n := by
          simp only [List.length_drop]
          omega
        exact ih _ hlen h2
      · rw [if_neg hpre]
        intro h
        rcases List.infix_cons_iff.mp h with h1 | h1
        · cases p with
          | nil => exact hp rfl
          | cons x p' =>
            rw [List.cons_prefix_cons] at h1
            obtain ⟨rfl, h1'⟩ := h1
            have h2 : p' <+: rest :=
              prefix_of_replaceAllF hhead n rest p'
                (fun hm => hblp (List.mem_cons_of_mem _ hm)) h1'
            exact hpre (List.cons_prefix_cons.mpr ⟨rfl, h2⟩)
        · exact ih rest hs' h1

/-- `replaceAllF` creates no new occurrence of a bracket-free word `q` that is
not part of the replacement text. -/
theorem infix_replaceAllF {p r q : List Char} {bl br : Char}
    (hhead : r.head? = some bl) (hlast : r.getLast? = some br)
    (hblq : bl ∉ q) (hbrq : br ∉ q) (hqr : ¬ q <:+: r) :
    ∀ fuel s, q <:+: replaceAllF p r fuel s → q <:+: s := by
  intro fuel
  induction fuel with
  | zero =>
    intro s h
    cases s with
    | nil => simpa [replaceAllF] using h
    | cons c rest => simpa [replaceAllF] using h
  | succ n ih =>
    intro s h
    cases s with
    | nil => simpa [replaceAllF] using h
    | cons c rest =>
      simp only [replaceAllF] at h
      by_cases hpre : p <+: c :: rest
      · rw [if_pos hpre] at h
        have h2 := infix_append_right_of_getLast hlast hbrq hqr h
        have h3 := ih _ h2
        exact h3.trans ((List.drop_suffix _ _).isInfix.trans
          (List.suffix_cons c rest).isInfix)
      · rw [if_neg hpre] at h
        rcases List.infix_cons_iff.mp h with h1 | h1
        · cases q with
          | nil => exact List.nil_infix
          | cons x q' =>
            rw [List.cons_prefix_cons] at h1
            obtain ⟨rfl, h1'⟩ := h1
            have h2 : q' <+: rest :=
              prefix_of_replaceAllF hhead n rest q'
                (fun hm => hblq (List.mem_cons_of_mem _ hm)) h1'
            exact (List.cons_prefix_cons.mpr ⟨rfl, h2⟩).isInfix
        · exact (ih rest h1).trans (List.suffix_cons c rest).isInfix

/-- If the pattern does not occur, `replaceAllF` is the identity. -/
theorem replaceAllF_eq_self {p r : List Char} :
    ∀ fuel s, ¬ p <:+: s → replaceAllF p r fuel s = s := by
  intro fuel
  induction fuel with
  | zero =>
    intro s _
    cases s <;> simp [replaceAllF]
  | succ n ih =>
    intro s h
    cases s with
    | nil => simp [replaceAllF]
    | cons c rest =>
      have hpre : ¬ p <+: c :: rest := fun hpre => h hpre.isInfix
      simp only [replaceAllF, if_neg hpre]
      rw [ih rest (fun h1 => h (h1.trans (List.suffix_cons c rest).isInfix))]

/-! ### `sanitize_sensitive_info` from `19_inputfilters.py` -/

def ccPat : List Char := "credit card".toList
def ccRep : List Char := "[PAYMENT METHOD]".toList
def ssnPat : List Char := "SSN".toList
def ssnRep : List Char := "[REDACTED ID]".toList
def pwPat : List Char := "password".toList
def pwRep : List Char := "[CREDENTIALS]".toList
def anPat : List Char := "account number".toList
def anRep : List Char := "[ACCOUNT ID]".toList

def redactionNote : List Char :=
  "[Note: Some sensitive information has been redacted for security purposes.]".toList

def sanitize_sensitive_info (input_text : List Char) : List Char :=
  let sanitized := replaceAll ccPat ccRep input_text
  let sanitized := replaceAll ssnPat ssnRep sanitized
  let sanitized := replaceAll pwPat pwRep sanitized
  let sanitized := replaceAll anPat anRep sanitized
  if sanitized ≠ input_text then sanitized ++ '\n' :: '\n' :: redactionNote
  else sanitized

/-- The four replacement passes, before the optional note is appended. -/
def sanitizeReplaced (s : List Char) : List Char :=
  replaceAll anPat anRep (replaceAll pwPat pwRep
    (replaceAll ssnPat ssnRep (replaceAll ccPat ccRep s)))

theorem sanitize_eq (s : List Char) :
    sanitize_sensitive_info s =
      if sanitizeReplaced s ≠ s then sanitizeReplaced s ++ '\n' :: '\n' :: redactionNote
      else sanitizeReplaced s := rfl

theorem kill_step {p r : List Char} (hp : p ≠ []) (hhead : r.head? = some '[')
    (hlast : r.getLast? = some ']') (hbl : '[' ∉ p) (hbr : ']' ∉ p)
    (hpr : ¬ p <:+: r) (s : List Char) : ¬ p <:+: replaceAll p r s :=
  not_infix_replaceAllF hp hhead hlast hbl hbr hpr _ s (le_refl _)

theorem keep_step {p r q : List Char} (hhead : r.head? = some '[')
    (hlast : r.getLast? = some ']') (hbl : '[' ∉ q) (hbr : ']' ∉ q)
    (hqr : ¬ q <:+: r) {s : List Char} (h : q <:+: replaceAll p r s) : q <:+: s :=
  infix_replaceAllF hhead hlast hbl hbr hqr _ s h

theorem id_step {p r s : List Char} (h : ¬ p <:+: s) : replaceAll p r s = s :=
  replaceAllF_eq_self _ s h

/-- None of the four sensitive substrings occurs after the four passes. -/
theorem replaced_clean (s : List Char) :
    ¬ ccPat <:+: sanitizeReplaced s ∧ ¬ ssnPat <:+: sanitizeReplaced s ∧
    ¬ pwPat <:+: sanitizeReplaced s ∧ ¬ anPat <:+: sanitizeReplaced s := by
  unfold sanitizeReplaced
  refine ⟨fun h => ?_, fun h => ?_, fun h => ?_, fun h => ?_⟩
  · exact kill_step (by decide) (by decide) (by decide) (by decide) (by decide)
      (by decide) s
      (keep_step (by decide) (by decide) (by decide) (by decide) (by decide)
        (keep_step (by decide) (by decide) (by decide) (by decide) (by decide)
          (keep_step (by decide) (by decide) (by decide) (by decide) (by decide) h)))
  · exact kill_step (by decide) (by decide) (by decide) (by decide) (by decide)
      (by decide) _
      (keep_step (by decide) (by decide) (by decide) (by decide) (by decide)
        (keep_step (by decide) (by decide) (by decide) (by decide) (by decide) h))
  · exact kill_step (by decide) (by decide) (by decide) (by decide) (by decide)
      (by decide) _
      (keep_step (by decide) (by decide) (by decide) (by decide) (by decide) h)
  · exact kill_step (by decide) (by decide) (by decide) (by decide) (by decide)
      (by decide) _ h

theorem pat_not_infix_append_note {q s4 : List Char}
    (hq : ¬ q <:+: s4) (hnote : ¬ q <:+: '\n' :: '\n' :: redactionNote)
    (hnl : ('\n' : Char) ∉ q) :
    ¬ q <:+: s4 ++ '\n' :: '\n' :: redactionNote := by
  intro h
  rcases infix_append_cases h with h1 | h1 | ⟨q₁, q₂, rfl, _, hne2, _, hpre⟩
  · exact hq h1
  · exact hnote h1
  · cases q₂ with
    | nil => exact hne2 rfl
    | cons x q₂' =>
      rw [List.cons_prefix_cons] at hpre
      obtain ⟨rfl, -⟩ := hpre
      exact hnl (by simp)

/-- None of the four sensitive substrings occurs in the sanitized output. -/
theorem sanitize_clean (s : List Char) :
    ¬ ccPat <:+: sanitize_sensitive_info s ∧
    ¬ ssnPat <:+: sanitize_sensitive_info s ∧
    ¬ pwPat <:+: sanitize_sensitive_info s ∧
    ¬ anPat <:+: sanitize_sensitive_info s := by
  obtain ⟨h1, h2, h3, h4⟩ := replaced_clean s
  rw [sanitize_eq]
  by_cases hne : sanitizeReplaced s ≠ s
  · rw [if_pos hne]
    exact ⟨pat_not_infix_append_note h1 (by decide) (by decide),
      pat_not_infix_append_note h2 (by decide) (by decide),
      pat_not_infix_append_note h3 (by decide) (by decide),
      pat_not_infix_append_note h4 (by decide) (by decide)⟩
  · rw [if_neg hne]
    exact ⟨h1, h2, h3, h4⟩

/-- If no sensitive substring occurs in the input, the four passes leave it
unchanged. -/
theorem replaced_eq_self {s : List Char}
    (h : ¬ (ccPat <:+: s ∨ ssnPat <:+: s ∨ pwPat <:+: s ∨ anPat <:+: s)) :
    sanitizeReplaced s = s := by
  push_neg at h
  obtain ⟨h1, h2, h3, h4⟩ := h
  unfold sanitizeReplaced
  rw [id_step h1, id_step h2, id_step h3, id_step h4]

/-- C1, counterexample: the redaction note itself contains none of the four
sensitive substrings, so `sanitize_sensitive_info` returns it unchanged, yet
the result still ends with the note text — the claimed "ends with the note
iff a sensitive substring occurred" equivalence fails on this input. -/
theorem C1_sanitize_counterexample :
    ¬ ((redactionNote <:+ sanitize_sensitive_info redactionNote) ↔
      (ccPat <:+: redactionNote ∨ ssnPat <:+: redactionNote ∨
       pwPat <:+: redactionNote ∨ anPat <:+: redactionNote)) := by
  decide

/-- C1 (amended): for every input, the sanitized output contains no occurrence
of any of the four sensitive substrings; if at least one of them occurred in
the input, the output is the fully replaced text with the redaction note
appended (in particular it ends with the note); and if none occurred the
output is the input unchanged (so the note is appended iff a sensitive
substring occurred — though the output may still end with the note text for
inputs that already do). -/
theorem C1_sanitize_amended (s : List Char) :
    (¬ ccPat <:+: sanitize_sensitive_info s ∧
     ¬ ssnPat <:+: sanitize_sensitive_info s ∧
     ¬ pwPat <:+: sanitize_sensitive_info s ∧
     ¬ anPat <:+: sanitize_sensitive_info s) ∧
    ((ccPat <:+: s ∨ ssnPat <:+: s ∨ pwPat <:+: s ∨ anPat <:+: s) →
      sanitize_sensitive_info s =
        sanitizeReplaced s ++ '\n' :: '\n' :: redactionNote ∧
      redactionNote <:+ sanitize_sensitive_info s) ∧
    (¬ (ccPat <:+: s ∨ ssnPat <:+: s ∨ pwPat <:+: s ∨ anPat <:+: s) →
      sanitize_sensitive_info s = s) := by
  refine ⟨sanitize_clean s, fun hocc => ?_, fun hnone => ?_⟩
  · have hne : sanitizeReplaced s ≠ s := by
      intro he
      obtain ⟨h1, h2, h3, h4⟩ := replaced_clean s
      rw [he] at h1 h2 h3 h4
      rcases hocc with h | h | h | h
      exacts [h1 h, h2 h, h3 h, h4 h]
    refine ⟨by rw [sanitize_eq, if_pos hne], ?_⟩
    rw [sanitize_eq, if_pos hne]
    exact (show redactionNote <:+ '\n' :: '\n' :: redactionNote from
      ⟨['\n', '\n'], rfl⟩).trans (List.suffix_append _ _)
  · have he := replaced_eq_self hnone
    rw [sanitize_eq, if_neg (not_not_intro he)]
    exact he

/-- C1 witness: an input containing "password" comes back ending in the
redaction note, and an input with no sensitive substring comes back
unchanged. -/
theorem C1_sanitize_amended_witness :
    redactionNote <:+ sanitize_sensitive_info ("my password".toList) ∧
    sanitize_sensitive_info ("hello".toList) = "hello".toList :=
  ⟨((C1_sanitize_amended ("my password".toList)).2.1
      (Or.inr (Or.inr (Or.inl (by decide))))).2,
   (C1_sanitize_amended ("hello".toList)).2.2 (by decide)⟩

/-- C8 (confirmed): `sanitize_sensitive_info` is idempotent — its output
contains none of the four searched-for substrings, so a second application
performs no replacement and appends no second note. -/
theorem C8_sanitize_idempotent (s : List Char) :
    sanitize_sensitive_info (sanitize_sensitive_info s) =
      sanitize_sensitive_info s := by
  obtain ⟨h1, h2, h3, h4⟩ := sanitize_clean s
  rw [sanitize_eq (sanitize_sensitive_info s)]
  have hrep : sanitizeReplaced (sanitize_sensitive_info s) =
      sanitize_sensitive_info s := by
    unfold sanitizeReplaced
    rw [id_step h1, id_step h2, id_step h3, id_step h4]
  rw [if_neg (not_not_intro hrep), hrep]

/-! ### `get_weather` from `26_basicvoiceagent.py` and `03_basicconfig.py` -/

def weather_choices : List String := ["sunny", "cloudy", "rainy", "snowy"]

/-- `get_weather` of the voice-agent script.  The extra `draw` argument models
the state of the `random` module consumed by `random.choice(choices)`: the
call picks `choices[draw % 4]`. -/
def get_weather_voice (city : String) (draw : Nat) : String :=
  "The weather in " ++ city ++ " is " ++ weather_choices.getD (draw % 4) "sunny" ++ "."

/-- `get_weather` of the basic-configuration script. -/
def get_weather_basic (city : String) : String :=
  "The weather in " ++ city ++ " is sunny"

/-- C4 (confirmed): the voice-agent `get_weather` returns one of exactly the
four canned strings (each reachable for a suitable random draw), and the
basicconfig `get_weather` always returns the single string
"The weather in X is sunny" with no period. -/
theorem C4_get_weather_canned (city : String) (draw : Nat) :
    (get_weather_voice city draw = "The weather in " ++ city ++ " is sunny." ∨
     get_weather_voice city draw = "The weather in " ++ city ++ " is cloudy." ∨
     get_weather_voice city draw = "The weather in " ++ city ++ " is rainy." ∨
     get_weather_voice city draw = "The weather in " ++ city ++ " is snowy.") ∧
    (get_weather_voice city 0 = "The weather in " ++ city ++ " is sunny." ∧
     get_weather_voice city 1 = "The weather in " ++ city ++ " is cloudy." ∧
     get_weather_voice city 2 = "The weather in " ++ city ++ " is rainy." ∧
     get_weather_voice city 3 = "The weather in " ++ city ++ " is snowy.") ∧
    get_weather_basic city = "The weather in " ++ city ++ " is sunny" := by
  have hev : ∀ w : String, ("The weather in " ++ city ++ " is ") ++ w ++ "." =
      "The weather in " ++ city ++ (" is " ++ w ++ ".") := by
    intro w
    simp [String.append_assoc]
  refine ⟨?_, ⟨?_, ?_, ?_, ?_⟩, rfl⟩
  · have h4 : draw % 4 = 0 ∨ draw % 4 = 1 ∨ draw % 4 = 2 ∨ draw % 4 = 3 := by
      omega
    rcases h4 with h4 | h4 | h4 | h4 <;>
      simp [get_weather_voice, h4, weather_choices, String.append_assoc]
  all_goals
    simp [get_weather_voice, weather_choices, String.append_assoc]

/-- C5, counterexample: the voice-agent `get_weather` is not a function of its
city argument alone — two invocations with the same city but different random
draws return different strings. -/
theorem C5_purity_counterexample :
    get_weather_voice "Paris" 0 ≠ get_weather_voice "Paris" 1 := by
  decide

/-- C5 (amended): `sanitize_sensitive_info` and the basicconfig `get_weather`
read nothing but their arguments in this embedding, and the voice-agent
`get_weather` is a deterministic function of its city argument together with
the random draw: equal draws (mod 4) give equal results. -/
theorem C5_purity_amended (city : String) (i j : Nat) (h : i % 4 = j % 4) :
    get_weather_voice city i = get_weather_voice city j := by
  unfold get_weather_voice
  rw [h]

/-- C5 witness: draws 0 and 4 select the same choice, giving equal outputs. -/
theorem C5_purity_amended_witness :
    (0 : Nat) % 4 = 4 % 4 ∧ get_weather_voice "Paris" 0 = get_weather_voice "Paris" 4 :=
  ⟨by decide, C5_purity_amended "Paris" 0 4 (by decide)⟩

/-! ### Guardrail functions from `23_guardrails.py` and `24_outputguardrails.py`

The detector agents run over the network; their structured result is the
parameter of the embedded guardrail functions, which contain the entire local
logic of `math_homework_guardrail` and `math_solution_guardrail`. -/

structure MathHomeworkOutput where
  is_math_homework : Bool
  reasoning : String
deriving DecidableEq

structure MathOutput where
  is_math : Bool
  reasoning : String
deriving DecidableEq

structure GuardrailFunctionOutput (α : Type) where
  output_info : α
  tripwire_triggered : Bool
  tripwire_message : Option String := none
deriving DecidableEq

def math_homework_guardrail (output : MathHomeworkOutput) :
    GuardrailFunctionOutput MathHomeworkOutput :=
  if output.is_math_homework then
    { output_info := output
      tripwire_triggered := true
      tripwire_message := some ("I can't provide direct solutions to math homework problems. "
        ++ output.reasoning
        ++ " Instead, I can explain concepts or guide you through the problem-solving approach without giving the answer.") }
  else
    { output_info := output
      tripwire_triggered := false }

def math_solution_guardrail (check_output : MathOutput) :
    GuardrailFunctionOutput MathOutput :=
  if check_output.is_math then
    { output_info := check_output
      tripwire_triggered := true
      tripwire_message := some ("I can't provide direct solutions to math problems. "
        ++ check_output.reasoning
        ++ " Instead, I'll provide guidance on the approach without giving the complete answer.") }
  else
    { output_info := check_output
      tripwire_triggered := false }

/-- C2 (confirmed): each guardrail trips exactly when the corresponding
detector flag is set, and in both branches the detector result is passed
through unchanged as `output_info`. -/
theorem C2_guardrail_tripwire (o : MathHomeworkOutput) (m : MathOutput) :
    ((math_homework_guardrail o).tripwire_triggered = o.is_math_homework ∧
     (math_homework_guardrail o).output_info = o) ∧
    ((math_solution_guardrail m).tripwire_triggered = m.is_math ∧
     (math_solution_guardrail m).output_info = m) := by
  constructor
  · unfold math_homework_guardrail
    cases h : o.is_math_homework <;> simp [h]
  · unfold math_solution_guardrail
    cases h : m.is_math <;> simp [h]

/-! ### The `GEMINI_API_KEY` prologue shared by the 24 `geminiagents` scripts -/

def geminiKeyErrorMsg : String :=
  "GEMINI_API_KEY is not set. Please ensure it is defined in your .env file."

/-- State built by a script's module initialization once the key check has
passed: the client is constructed with the key that was read. -/
structure GeminiModuleState where
  api_key : String
deriving DecidableEq

/-- Module-level prologue of every `geminiagents` script: read
`GEMINI_API_KEY` (`none` models an unset variable), raise `ValueError` when
the value is falsy (absent or empty), and only then construct the client. -/
def geminiModuleInit (env : Option String) : Except String GeminiModuleState :=
  match env with
  | none => .error geminiKeyErrorMsg
  | some k => if k = "" then .error geminiKeyErrorMsg else .ok { api_key := k }

/-- C3 (confirmed): an unset or empty `GEMINI_API_KEY` makes module
initialization fail with exactly the documented `ValueError` message before
any client state is built, and any non-empty key initializes successfully. -/
theorem C3_gemini_key_check (k : String) (hk : k ≠ "") :
    geminiModuleInit none = .error geminiKeyErrorMsg ∧
    geminiModuleInit (some "") = .error geminiKeyErrorMsg ∧
    geminiModuleInit (some k) = .ok { api_key := k } := by
  refine ⟨rfl, rfl, ?_⟩
  simp [geminiModuleInit, hk]

/-- C3 witness: a concrete non-empty key initializes, and the two failure
cases return the error message. -/
theorem C3_gemini_key_check_witness :
    geminiModuleInit none = .error geminiKeyErrorMsg ∧
    geminiModuleInit (some "") = .error geminiKeyErrorMsg ∧
    geminiModuleInit (some "AIza-test") = .ok { api_key := "AIza-test" } :=
  ⟨(C3_gemini_key_check "AIza-test" (by decide)).1,
   (C3_gemini_key_check "AIza-test" (by decide)).2.1,
   (C3_gemini_key_check "AIza-test" (by decide)).2.2⟩

/-! ### Local context tools from `22_localcontext.py`

`UserInfo` is the dataclass; `Option` models Python's `None` defaults, and
`mkUserInfo` is the dataclass constructor followed by `__post_init__`.  The
preferences dict is an association list in insertion order with unique keys;
`dictSet` is Python's `d[key] = value`. -/

structure Purchase where
  item : Option String := none
  price : Option String := none
  date : Option String := none
deriving DecidableEq

structure UserInfo where
  name : String
  uid : Int
  email : Option String := none
  subscription_tier : String := "free"
  preferences : Option (List (String × String)) := none
  purchase_history : Option (List Purchase) := none
deriving DecidableEq

def UserInfo.postInit (u : UserInfo) : UserInfo :=
  { u with
    preferences := some (u.preferences.getD [])
    purchase_history := some (u.purchase_history.getD []) }

def mkUserInfo (name : String) (uid : Int) (email : Option String)
    (subscription_tier : String)
    (preferences : Option (List (String × String)))
    (purchase_history : Option (List Purchase)) : UserInfo :=
  UserInfo.postInit
    { name := name, uid := uid, email := email,
      subscription_tier := subscription_tier, preferences := preferences,
      purchase_history := purchase_history }

def dictGet : List (String × String) → String → Option String
  | [], _ => none
  | (k', v) :: rest, k => if k' = k then some v else dictGet rest k

def dictHasKey : List (String × String) → String → Bool
  | [], _ => false
  | (k', _) :: rest, k => k' == k || dictHasKey rest k

def dictSet (m : List (String × String)) (k v : String) : List (String × String) :=
  if dictHasKey m k then m.map (fun p => if p.1 = k then (k, v) else p)
  else m ++ [(k, v)]

def pyLower (s : String) : String := ⟨s.data.map Char.toLower⟩

def pyCapitalize (s : String) : String :=
  match s.data with
  | [] => ""
  | c :: rest => ⟨Char.toUpper c :: rest.map Char.toLower⟩

def features_free : List String :=
  ["Basic access to platform", "Limited storage (5GB)", "Standard support",
   "Access to community forums"]

def features_basic : List String :=
  ["Full access to platform", "Increased storage (50GB)", "Priority email support",
   "No advertisements", "Monthly newsletter"]

def features_premium : List String :=
  ["Full access to all features", "Unlimited storage", "24/7 priority support",
   "Early access to new features", "Exclusive content",
   "Personalized recommendations"]

def features_lookup (tier : String) : Option (List String) :=
  if tier = "free" then some features_free
  else if tier = "basic" then some features_basic
  else if tier = "premium" then some features_premium
  else none

def get_subscription_features (u : UserInfo) : String :=
  match features_lookup (pyLower u.subscription_tier) with
  | none => "Unknown subscription tier: " ++ u.subscription_tier
  | some fs =>
      "Features for " ++ pyCapitalize u.subscription_tier ++ " tier:\n" ++
        String.intercalate "\n" (fs.map (fun f => "- " ++ f))

/-- `update_user_preference`; `none` models the `TypeError` Python would raise
on subscripting a `None` preferences field. -/
def update_user_preference (u : UserInfo) (key value : String) :
    Option (UserInfo × String) :=
  match u.preferences with
  | none => none
  | some m =>
      some ({ u with preferences := some (dictSet m key value) },
        "Successfully updated preference: " ++ key ++ " = " ++ value)

def fetch_user_profile (u : UserInfo) : String :=
  "\nUser Profile:\n- Name: " ++ u.name ++
  "\n- User ID: " ++ toString u.uid ++
  "\n- Email: " ++ (match u.email with
    | some e => if e = "" then "Not provided" else e
    | none => "Not provided") ++
  "\n- Subscription: " ++ u.subscription_tier ++ "\n"

def fetch_user_preferences (u : UserInfo) : String :=
  match u.preferences with
  | none => "No preferences have been set for this user."
  | some [] => "No preferences have been set for this user."
  | some m =>
      "User Preferences:\n" ++
        String.intercalate "\n" (m.map (fun p => "- " ++ p.1 ++ ": " ++ p.2))

def fetch_purchase_history (u : UserInfo) : String :=
  match u.purchase_history with
  | none => "No purchase history found for this user."
  | some [] => "No purchase history found for this user."
  | some ps =>
      "Purchase History:\n" ++
        String.intercalate "\n" (ps.map (fun p =>
          "- " ++ p.item.getD "Unknown item" ++ ": $" ++ p.price.getD "0.0" ++
            " on " ++ p.date.getD "Unknown date"))

/-- The invariant of C9: neither collection field is `None`. -/
def UserInfoInv (u : UserInfo) : Prop :=
  u.preferences ≠ none ∧ u.purchase_history ≠ none

theorem dictGet_map_self (m : List (String × String)) (k v : String)
    (hk : dictHasKey m k = true) :
    dictGet (m.map (fun p => if p.1 = k then (k, v) else p)) k = some v := by
  induction m with
  | nil => simp [dictHasKey] at hk
  | cons a rest ih =>
    obtain ⟨a1, a2⟩ := a
    by_cases hab : a1 = k
    · subst hab
      rw [List.map_cons,
        if_pos (show ((a1, a2) : String × String).1 = a1 from rfl)]
      simp [dictGet]
    · have hk' : dictHasKey rest k = true := by
        simpa [dictHasKey, hab] using hk
      rw [List.map_cons, if_neg (show ¬ ((a1, a2) : String × String).1 = k from hab)]
      simp [dictGet, hab, ih hk']

theorem dictGet_append_self (m : List (String × String)) (k v : String)
    (hk : dictHasKey m k = false) :
    dictGet (m ++ [(k, v)]) k = some v := by
  induction m with
  | nil => simp [dictGet]
  | cons a rest ih =>
    obtain ⟨a1, a2⟩ := a
    simp only [dictHasKey, Bool.or_eq_false_iff, beq_eq_false_iff_ne, ne_eq] at hk
    obtain ⟨h1, h2⟩ := hk
    simp [dictGet, h1, ih h2]

theorem dictGet_map_other (m : List (String × String)) (k v k' : String)
    (h : k' ≠ k) :
    dictGet (m.map (fun p => if p.1 = k then (k, v) else p)) k' = dictGet m k' := by
  induction m with
  | nil => simp
  | cons a rest ih =>
    obtain ⟨a1, a2⟩ := a
    by_cases hab : a1 = k
    · subst hab
      have h2 : ¬ (a1 = k') := fun he => h (he.symm)
      rw [List.map_cons,
        if_pos (show ((a1, a2) : String × String).1 = a1 from rfl)]
      simp [dictGet, h2, ih]
    · rw [List.map_cons, if_neg (show ¬ ((a1, a2) : String × String).1 = k from hab)]
      by_cases hak : a1 = k'
      · simp [dictGet, hak]
      · simp [dictGet, hak, ih]

theorem dictGet_append_other (m : List (String × String)) (k v k' : String)
    (h : k' ≠ k) :
    dictGet (m ++ [(k, v)]) k' = dictGet m k' := by
  induction m with
  | nil =>
    have h2 : ¬ (k = k') := fun he => h (he.symm)
    simp [dictGet, h2]
  | cons a rest ih =>
    obtain ⟨a1, a2⟩ := a
    by_cases hak : a1 = k'
    · simp [dictGet, hak]
    · simp [dictGet, hak, ih]

theorem dictGet_set_self (m : List (String × String)) (k v : String) :
    dictGet (dictSet m k v) k = some v := by
  unfold dictSet
  by_cases hk : dictHasKey m k
  · rw [if_pos hk]
    exact dictGet_map_self m k v hk
  · rw [if_neg hk]
    exact dictGet_append_self m k v (Bool.eq_false_iff.mpr hk)

theorem dictGet_set_other (m : List (String × String)) (k v k' : String)
    (h : k' ≠ k) : dictGet (dictSet m k v) k' = dictGet m k' := by
  unfold dictSet
  by_cases hk : dictHasKey m k
  · rw [if_pos hk]
    exact dictGet_map_other m k v k' h
  · rw [if_neg hk]
    exact dictGet_append_other m k v k' h

/-- C6 (confirmed): `get_subscription_features` returns the canned feature
list for the lowercased tier (4 features for free, 5 for basic, 6 for
premium) rendered as "- "-prefixed lines under a capitalized-tier header, and
"Unknown subscription tier: {tier}" for every other tier value. -/
theorem C6_subscription_features (u : UserInfo) :
    (pyLower u.subscription_tier = "free" →
      get_subscription_features u =
        "Features for " ++ pyCapitalize u.subscription_tier ++ " tier:\n" ++
          String.intercalate "\n" (features_free.map (fun f => "- " ++ f)) ∧
      features_free.length = 4) ∧
    (pyLower u.subscription_tier = "basic" →
      get_subscription_features u =
        "Features for " ++ pyCapitalize u.subscription_tier ++ " tier:\n" ++
          String.intercalate "\n" (features_basic.map (fun f => "- " ++ f)) ∧
      features_basic.length = 5) ∧
    (pyLower u.subscription_tier = "premium" →
      get_subscription_features u =
        "Features for " ++ pyCapitalize u.subscription_tier ++ " tier:\n" ++
          String.intercalate "\n" (features_premium.map (fun f => "- " ++ f)) ∧
      features_premium.length = 6) ∧
    (pyLower u.subscription_tier ≠ "free" →
     pyLower u.subscription_tier ≠ "basic" →
     pyLower u.subscription_tier ≠ "premium" →
      get_subscription_features u =
        "Unknown subscription tier: " ++ u.subscription_tier) := by
  refine ⟨fun h => ⟨?_, rfl⟩, fun h => ⟨?_, rfl⟩, fun h => ⟨?_, rfl⟩,
    fun h1 h2 h3 => ?_⟩
  · unfold get_subscription_features
    rw [h]
    rfl
  · unfold get_subscription_features
    rw [h]
    rfl
  · unfold get_subscription_features
    rw [h]
    rfl
  · unfold get_subscription_features features_lookup
    rw [if_neg h1, if_neg h2, if_neg h3]

/-- C6 witness: a premium user gets the six premium features under the
capitalized header, and an unrecognized tier gets the fallback message. -/
theorem C6_subscription_features_witness :
    (get_subscription_features
        { name := "Dana", uid := 7, subscription_tier := "Premium" } =
      "Features for " ++ pyCapitalize "Premium" ++ " tier:\n" ++
        String.intercalate "\n" (features_premium.map (fun f => "- " ++ f)) ∧
      features_premium.length = 6) ∧
    get_subscription_features
        { name := "Eve", uid := 8, subscription_tier := "gold" } =
      "Unknown subscription tier: " ++ "gold" :=
  ⟨(C6_subscription_features
      { name := "Dana", uid := 7, subscription_tier := "Premium" }).2.2.1
        (by decide),
   (C6_subscription_features
      { name := "Eve", uid := 8, subscription_tier := "gold" }).2.2.2
        (by decide) (by decide) (by decide)⟩

/-- C9 (confirmed): `__post_init__` replaces `None` collection defaults with
empty collections, so every constructed `UserInfo` satisfies the invariant
that `preferences` and `purchase_history` are never `None`; the read-only
context tools do not modify the context, and `update_user_preference`
succeeds on every invariant-satisfying context and preserves the
invariant. -/
theorem C9_userinfo_invariant (name : String) (uid : Int) (email : Option String)
    (tier : String) (prefs : Option (List (String × String)))
    (hist : Option (List Purchase)) (u : UserInfo) (k v : String)
    (hu : UserInfoInv u) :
    UserInfoInv (mkUserInfo name uid email tier prefs hist) ∧
    ∃ u' msg, update_user_preference u k v = some (u', msg) ∧ UserInfoInv u' := by
  constructor
  · exact ⟨by simp [mkUserInfo, UserInfo.postInit], by simp [mkUserInfo, UserInfo.postInit]⟩
  · cases hm : u.preferences with
    | none => exact absurd hm hu.1
    | some m =>
      refine ⟨{ u with preferences := some (dictSet m k v) },
        "Successfully updated preference: " ++ k ++ " = " ++ v, ?_, by simp, ?_⟩
      · simp [update_user_preference, hm]
      · simpa using hu.2

/-- C9 witness: a context constructed with `None` collections satisfies the
invariant, and updating a preference on it succeeds and preserves it. -/
theorem C9_userinfo_invariant_witness :
    UserInfoInv (mkUserInfo "Alice" 1 none "free" none none) ∧
    ∃ u' msg, update_user_preference (mkUserInfo "Alice" 1 none "free" none none)
        "theme" "dark" = some (u', msg) ∧ UserInfoInv u' :=
  C9_userinfo_invariant "Alice" 1 none "free" none none
    (mkUserInfo "Alice" 1 none "free" none none) "theme" "dark"
    ⟨by simp [mkUserInfo, UserInfo.postInit], by simp [mkUserInfo, UserInfo.postInit]⟩

/-- C10 (confirmed): on a context whose preferences dict is present,
`update_user_preference` sets `preferences[key]` to `value`, returns
"Successfully updated preference: {key} = {value}", and leaves the other
fields and every other preference key unchanged. -/
theorem C10_update_preference_frame (u : UserInfo)
    (m : List (String × String)) (k v : String)
    (hm : u.preferences = some m) :
    ∃ u', update_user_preference u k v =
        some (u', "Successfully updated preference: " ++ k ++ " = " ++ v) ∧
      u'.name = u.name ∧ u'.uid = u.uid ∧ u'.email = u.email ∧
      u'.subscription_tier = u.subscription_tier ∧
      u'.purchase_history = u.purchase_history ∧
      u'.preferences = some (dictSet m k v) ∧
      dictGet (dictSet m k v) k = some v ∧
      ∀ k', k' ≠ k → dictGet (dictSet m k v) k' = dictGet m k' := by
  refine ⟨{ u with preferences := some (dictSet m k v) }, ?_, rfl, rfl, rfl,
    rfl, rfl, rfl, dictGet_set_self m k v, fun k' hk' => dictGet_set_other m k v k' hk'⟩
  simp [update_user_preference, hm]

/-- C10 witness: a concrete update stores the new key, returns the success
message, and leaves an existing key readable. -/
theorem C10_update_preference_frame_witness :
    ∃ u', update_user_preference
        { name := "Bob", uid := 2, preferences := some [("lang", "en")] }
        "theme" "dark" =
      some (u', "Successfully updated preference: " ++ "theme" ++ " = " ++ "dark") :=
  match C10_update_preference_frame
      { name := "Bob", uid := 2, preferences := some [("lang", "en")] }
      [("lang", "en")] "theme" "dark" rfl with
  | ⟨u', he, _⟩ => ⟨u', he⟩

/-! ### `dynamic_instructions` from `07_basicdynamicinstructions.py` -/

structure UserContext where
  name : String
  language : String
  interests : List String
  experience_level : String

def diBase (u : UserContext) : String :=
  "\n    The user's name is " ++ u.name ++
  ". They prefer communication in " ++ u.language ++
  ".\n    Their experience level is: " ++ u.experience_level ++
  ".\n    Their interests include: " ++ String.intercalate ", " u.interests ++
  ".\n    \n    Tailor your responses to match their experience level and interests.\n    "

def beginnerPara : String :=
  "\n        Use simple explanations and avoid technical jargon.\n        Provide step-by-step guidance and offer encouragement.\n        "

def intermediatePara : String :=
  "\n        You can use some technical terms but explain complex concepts.\n        Provide more detailed information and some advanced tips.\n        "

def expertPara : String :=
  "\n        You can use technical language freely.\n        Focus on advanced techniques and in-depth analysis.\n        Be concise and precise in your explanations.\n        "

def langPara (language : String) : String :=
  "\n        Respond in " ++ language ++
  " when possible.\n        Use simple sentence structures for clarity.\n        "

def dynamic_instructions (u : UserContext) : String :=
  let base := diBase u
  let base :=
    if u.experience_level = "beginner" then base ++ beginnerPara
    else if u.experience_level = "intermediate" then base ++ intermediatePara
    else if u.experience_level = "expert" then base ++ expertPara
    else base
  if u.language ≠ "English" then base ++ langPara u.language else base

/-- The experience-level paragraph appended by `dynamic_instructions`. -/
def levelPara (lvl : String) : String :=
  if lvl = "beginner" then beginnerPara
  else if lvl = "intermediate" then intermediatePara
  else if lvl = "expert" then expertPara
  else ""

/-- The language addendum appended by `dynamic_instructions`. -/
def langSuffix (language : String) : String :=
  if language ≠ "English" then langPara language else ""

theorem di_eq (u : UserContext) :
    dynamic_instructions u =
      diBase u ++ levelPara u.experience_level ++ langSuffix u.language := by
  simp only [dynamic_instructions, levelPara, langSuffix]
  split_ifs <;> simp

theorem infix_triple {α : Type} (a l c : List α) : l <:+: a ++ (l ++ c) :=
  ⟨a, c, by simp⟩

theorem infix_head {α : Type} (l c : List α) : l <:+: l ++ c :=
  (List.prefix_append l c).isInfix

theorem infix_ext_left {α : Type} {l a : List α} (t : List α) (h : l <:+: a) :
    l <:+: t ++ a := by
  obtain ⟨s, u, rfl⟩ := h
  exact ⟨t ++ s, u, by simp⟩

theorem infix_ext_right {α : Type} {l a : List α} (t : List α) (h : l <:+: a) :
    l <:+: a ++ t := by
  obtain ⟨s, u, rfl⟩ := h
  exact ⟨s, u ++ t, by simp⟩

theorem name_in_di (u : UserContext) :
    u.name.data <:+: (dynamic_instructions u).data := by
  rw [di_eq]
  unfold diBase
  simp only [String.data_append, List.append_assoc]
  exact infix_triple _ _ _

theorem language_in_di (u : UserContext) :
    u.language.data <:+: (dynamic_instructions u).data := by
  rw [di_eq]
  unfold diBase
  simp only [String.data_append, List.append_assoc]
  exact infix_ext_left _ (infix_ext_left _ (infix_triple _ _ _))

theorem level_in_di (u : UserContext) :
    u.experience_level.data <:+: (dynamic_instructions u).data := by
  rw [di_eq]
  unfold diBase
  simp only [String.data_append, List.append_assoc]
  exact infix_ext_left _ (infix_ext_left _ (infix_ext_left _ (infix_ext_left _
    (infix_triple _ _ _))))

theorem interests_in_di (u : UserContext) :
    (String.intercalate ", " u.interests).data <:+: (dynamic_instructions u).data := by
  rw [di_eq]
  unfold diBase
  simp only [String.data_append, List.append_assoc]
  exact infix_ext_left _ (infix_ext_left _ (infix_ext_left _ (infix_ext_left _
    (infix_ext_left _ (infix_ext_left _ (infix_triple _ _ _))))))

theorem addendum_in_langPara (lang : String) :
    ("Respond in " ++ lang ++ " when possible.").data <:+: (langPara lang).data := by
  unfold langPara
  simp only [String.data_append]
  refine ⟨("\n        ").data,
    ("\n        Use simple sentence structures for clarity.\n        ").data, ?_⟩
  simp [List.append_assoc]

/-- C7, counterexample: the claimed "contains the level paragraph exactly
when the level matches" fails — a user whose name is the beginner paragraph
text makes the output contain that paragraph although the experience level is
"expert". -/
theorem C7_dynamic_instructions_counterexample :
    beginnerPara.data <:+:
      (dynamic_instructions
        { name := beginnerPara, language := "English", interests := [],
          experience_level := "expert" }).data ∧
    ("expert" : String) ≠ "beginner" :=
  ⟨name_in_di
      { name := beginnerPara, language := "English", interests := [],
        experience_level := "expert" },
   by decide⟩

/-- C7 (amended): `dynamic_instructions` always embeds the user's name,
language, experience level and comma-joined interests; it is exactly the base
text followed by the level-specific paragraph (appended precisely when the
level is "beginner", "intermediate" or "expert", nothing otherwise) and the
language addendum (appended precisely when the language is not "English");
hence it contains the matching paragraph and addendum, though an output may
also contain a paragraph smuggled in through the user's own field values. -/
theorem C7_dynamic_instructions_amended (u : UserContext) :
    u.name.data <:+: (dynamic_instructions u).data ∧
    u.language.data <:+: (dynamic_instructions u).data ∧
    u.experience_level.data <:+: (dynamic_instructions u).data ∧
    (String.intercalate ", " u.interests).data <:+: (dynamic_instructions u).data ∧
    dynamic_instructions u =
      diBase u ++ levelPara u.experience_level ++ langSuffix u.language ∧
    (u.experience_level = "beginner" →
      beginnerPara.data <:+: (dynamic_instructions u).data) ∧
    (u.experience_level = "intermediate" →
      intermediatePara.data <:+: (dynamic_instructions u).data) ∧
    (u.experience_level = "expert" →
      expertPara.data <:+: (dynamic_instructions u).data) ∧
    (u.language ≠ "English" →
      ("Respond in " ++ u.language ++ " when possible.").data <:+:
        (dynamic_instructions u).data) := by
  refine ⟨name_in_di u, language_in_di u, level_in_di u, interests_in_di u,
    di_eq u, fun h => ?_, fun h => ?_, fun h => ?_, fun h => ?_⟩
  · rw [di_eq, h]
    have e : levelPara "beginner" = beginnerPara := by simp [levelPara]
    rw [e]
    simp only [String.data_append, List.append_assoc]
    exact infix_ext_left _ (infix_head _ _)
  · rw [di_eq, h]
    have e : levelPara "intermediate" = intermediatePara := by simp [levelPara]
    rw [e]
    simp only [String.data_append, List.append_assoc]
    exact infix_ext_left _ (infix_head _ _)
  · rw [di_eq, h]
    have e : levelPara "expert" = expertPara := by simp [levelPara]
    rw [e]
    simp only [String.data_append, List.append_assoc]
    exact infix_ext_left _ (infix_head _ _)
  · rw [di_eq]
    unfold langSuffix
    rw [if_pos h]
    simp only [String.data_append, List.append_assoc]
    exact infix_ext_left _ (infix_ext_left _ (addendum_in_langPara u.language))

/-- C7 witness: an expert Spanish-speaking user's instructions contain the
expert paragraph and the Spanish addendum, and a beginner's contain the
beginner paragraph. -/
theorem C7_dynamic_instructions_amended_witness :
    expertPara.data <:+:
      (dynamic_instructions
        { name := "Ana", language := "Spanish", interests := ["math"],
          experience_level := "expert" }).data ∧
    ("Respond in " ++ "Spanish" ++ " when possible.").data <:+:
      (dynamic_instructions
        { name := "Ana", language := "Spanish", interests := ["math"],
          experience_level := "expert" }).data ∧
    beginnerPara.data <:+:
      (dynamic_instructions
        { name := "Li", language := "English", interests := [],
          experience_level := "beginner" }).data :=
  ⟨(C7_dynamic_instructions_amended
      { name := "Ana", language := "Spanish", interests := ["math"],
        experience_level := "expert" }).2.2.2.2.2.2.2.1 rfl,
   (C7_dynamic_instructions_amended
      { name := "Ana", language := "Spanish", interests := ["math"],
        experience_level := "expert" }).2.2.2.2.2.2.2.2 (by decide),
   (C7_dynamic_instructions_amended
      { name := "Li", language := "English", interests := [],
        experience_level := "beginner" }).2.2.2.2.2.1 rfl⟩

end Spec2Proof
